import Mathlib

/-!
Shallow embedding of `src/main.py` (a contact directory with birthday
tracking) and proofs about it.

The Python program stores contacts in an `AddressBook` (a dict keyed by
name), each contact (`Record`) holding a name, a list of phone numbers
(10-digit strings, validated by `Phone.validate`), and an optional
birthday kept as the raw `DD.MM.YYYY` string (validated by
`Birthday.__init__` via `datetime.strptime(value, "%d.%m.%Y")`).
`AddressBook.get_upcoming_birthdays` projects each birthday onto the
current year (re-projecting onto next year when already past), keeps those
at most 7 days away, shifts weekend occurrences to the following Monday
and formats the congratulation date as `YYYY.MM.DD`.

Dates are modelled as `(year, month, day)` triples in the proleptic
Gregorian calendar, exactly the calendar of Python's `datetime.date`:
`toOrdinal` matches `date.toordinal()` (0001-01-01 ↦ 1) and `weekday`
matches `date.weekday()` (Monday = 0).  Python exceptions (`ValueError`
from `strptime`/`date.replace`, `OverflowError` from date addition past
year 9999) are modelled as `none`/`Except.error` results.
-/

/-- A calendar date, as Python's `datetime.date`: year, month, day. -/
structure Date where
  year : Nat
  month : Nat
  day : Nat
deriving DecidableEq, Repr

/-- Gregorian leap-year rule, as `calendar.isleap` / `datetime`. -/
def isLeapYear (y : Nat) : Bool :=
  (y % 4 == 0 && y % 100 != 0) || (y % 400 == 0)

/-- Number of days of month `m` in year `y` (as `datetime`'s `_days_in_month`). -/
def daysInMonth (y m : Nat) : Nat :=
  if m = 2 then (if isLeapYear y then 29 else 28)
  else if m = 4 ∨ m = 6 ∨ m = 9 ∨ m = 11 then 30
  else 31

/-- `1` in a leap year, else `0`. -/
def leapAdj (y : Nat) : Nat := if isLeapYear y then 1 else 0

/-- Days in year `y` strictly before the first day of month `m`
(`datetime`'s `_days_before_month`). -/
def daysBeforeMonth (y : Nat) : Nat → Nat
  | 1 => 0
  | 2 => 31
  | 3 => 59 + leapAdj y
  | 4 => 90 + leapAdj y
  | 5 => 120 + leapAdj y
  | 6 => 151 + leapAdj y
  | 7 => 181 + leapAdj y
  | 8 => 212 + leapAdj y
  | 9 => 243 + leapAdj y
  | 10 => 273 + leapAdj y
  | 11 => 304 + leapAdj y
  | 12 => 334 + leapAdj y
  | _ => 0

/-- Number of leap years among `1, …, y` (as in `datetime`'s `_days_before_year`). -/
def leapsBefore (y : Nat) : Nat := y / 4 - y / 100 + y / 400

/-- Days before January 1 of year `y` (`datetime`'s `_days_before_year`). -/
def daysBeforeYear (y : Nat) : Nat := 365 * (y - 1) + leapsBefore (y - 1)

/-- Proleptic-Gregorian ordinal of a date, as `datetime.date.toordinal`:
0001-01-01 has ordinal 1. -/
def toOrdinal (d : Date) : Nat :=
  daysBeforeYear d.year + daysBeforeMonth d.year d.month + d.day

/-- Day of the week, as `datetime.date.weekday`: Monday = 0 … Sunday = 6. -/
def weekday (d : Date) : Nat := (toOrdinal d + 6) % 7

/-- The well-formedness of a `(year, month, day)` triple as a calendar date
(year at least 1, month 1–12, day within the month). -/
abbrev Date.validShape (d : Date) : Prop :=
  1 ≤ d.year ∧ 1 ≤ d.month ∧ d.month ≤ 12 ∧ 1 ≤ d.day ∧
    d.day ≤ daysInMonth d.year d.month

/-- The day after `d` in the proleptic Gregorian calendar. -/
def succDay (d : Date) : Date :=
  if d.day < daysInMonth d.year d.month then ⟨d.year, d.month, d.day + 1⟩
  else if d.month < 12 then ⟨d.year, d.month + 1, 1⟩
  else ⟨d.year + 1, 1, 1⟩

/-- `d` plus `n` days: models `d + timedelta(days=n)` (without `date.max`
overflow, which the callers check separately). -/
def addDays (d : Date) (n : Nat) : Date := succDay^[n] d

/-- Python's `date.__lt__`: lexicographic on `(year, month, day)`. -/
def dateLt (a b : Date) : Bool :=
  a.year < b.year ||
    (a.year == b.year &&
      (a.month < b.month || (a.month == b.month && a.day < b.day)))

/-- `d.replace(year = y)`: keeps month and day, re-validates the result as
`datetime.date.__new__` does — `none` models the raised `ValueError`
(e.g. Feb 29 mapped to a non-leap year, or a year outside `1…9999`). -/
def replaceYear (d : Date) (y : Nat) : Option Date :=
  if 1 ≤ y ∧ y ≤ 9999 ∧ 1 ≤ d.month ∧ d.month ≤ 12 ∧ 1 ≤ d.day ∧
      d.day ≤ daysInMonth y d.month then
    some ⟨y, d.month, d.day⟩
  else none

/-- Numeric value of a decimal digit character. -/
def digitVal (c : Char) : Nat := c.toNat - 48

/-- The decimal digit character for `n < 10`. -/
def digitChar (n : Nat) : Char := Char.ofNat (48 + n)

/-- Two-digit zero-padded decimal representation (for `n < 100`). -/
def pad2Chars (n : Nat) : List Char := [digitChar (n / 10), digitChar (n % 10)]

/-- Four-digit zero-padded decimal representation (for `n < 10000`). -/
def pad4Chars (n : Nat) : List Char :=
  [digitChar (n / 1000), digitChar (n / 100 % 10),
   digitChar (n / 10 % 10), digitChar (n % 10)]

/-- The canonical `DD.MM.YYYY` rendering of a date — the text form
`strftime("%d.%m.%Y")` produces for four-digit years. -/
def formatDMY (d : Date) : String :=
  String.mk (pad2Chars d.day ++ '.' :: pad2Chars d.month ++ '.' :: pad4Chars d.year)

/-- The `YYYY.MM.DD` rendering used by `congratulation_date.strftime("%Y.%m.%d")`. -/
def formatYMD (d : Date) : String :=
  String.mk (pad4Chars d.year ++ '.' :: pad2Chars d.month ++ '.' :: pad2Chars d.day)

/-- CPython `strptime` day field `%d`: regex `3[01]|[12]\d|0[1-9]|[1-9]` —
one or two digits, value 1–31, two-digit `00` excluded.  Returns the value
and the unconsumed input. -/
def parseDayField : List Char → Option (Nat × List Char)
  | c1 :: c2 :: rest =>
    if c1.isDigit && c2.isDigit then
      let v := digitVal c1 * 10 + digitVal c2
      if 1 ≤ v ∧ v ≤ 31 then some (v, rest) else none
    else if c1.isDigit && 1 ≤ digitVal c1 then some (digitVal c1, c2 :: rest)
    else none
  | [c1] =>
    if c1.isDigit && 1 ≤ digitVal c1 then some (digitVal c1, []) else none
  | [] => none

/-- CPython `strptime` month field `%m`: regex `1[0-2]|0[1-9]|[1-9]` —
one or two digits, value 1–12, two-digit `00` excluded. -/
def parseMonthField : List Char → Option (Nat × List Char)
  | c1 :: c2 :: rest =>
    if c1.isDigit && c2.isDigit then
      let v := digitVal c1 * 10 + digitVal c2
      if 1 ≤ v ∧ v ≤ 12 then some (v, rest) else none
    else if c1.isDigit && 1 ≤ digitVal c1 then some (digitVal c1, c2 :: rest)
    else none
  | [c1] =>
    if c1.isDigit && 1 ≤ digitVal c1 then some (digitVal c1, []) else none
  | [] => none

/-- CPython `strptime` year field `%Y`: regex `\d\d\d\d` — exactly four digits. -/
def parseYearField : List Char → Option (Nat × List Char)
  | c1 :: c2 :: c3 :: c4 :: rest =>
    if c1.isDigit && c2.isDigit && c3.isDigit && c4.isDigit then
      some (digitVal c1 * 1000 + digitVal c2 * 100 + digitVal c3 * 10 +
        digitVal c4, rest)
    else none
  | _ => none

/-- `datetime.strptime(s, "%d.%m.%Y").date()` on the character list of `s`:
match day, literal dot, month, literal dot, four-digit year, end of input,
then construct the `date` (which checks `1 ≤ year ≤ 9999` and that the day
exists in the month).  `none` models the raised `ValueError`. -/
def parseDMYList (cs : List Char) : Option Date :=
  match parseDayField cs with
  | none => none
  | some (d, r1) =>
    match r1 with
    | c1 :: r2 =>
      if c1 = '.' then
        match parseMonthField r2 with
        | none => none
        | some (m, r3) =>
          match r3 with
          | c2 :: r4 =>
            if c2 = '.' then
              match parseYearField r4 with
              | none => none
              | some (y, r5) =>
                if r5 = [] then
                  if 1 ≤ y ∧ y ≤ 9999 ∧ d ≤ daysInMonth y m then
                    some ⟨y, m, d⟩
                  else none
                else none
            else none
          | [] => none
      else none
    | [] => none

/-- `datetime.strptime(s, "%d.%m.%Y").date()`. -/
def parseDMY (s : String) : Option Date := parseDMYList s.data

/-- The error taxonomy of the program: each constructor models one of the
`ValueError` / `KeyError` conditions raised in `main.py`. -/
inductive Err where
  /-- `Phone.validate`: "the phone number must contain 10 digits". -/
  | invalidPhone : Err
  /-- `Birthday.__init__`: "wrong date format, use DD.MM.YYYY". -/
  | invalidDate : Err
  /-- `Record.edit_phone` / `find_phone`: "phone number not found". -/
  | phoneNotFound : Err
  /-- `AddressBook.find` / `delete`: `KeyError` "contact not found". -/
  | notFound : Err
deriving DecidableEq, Repr

/-- Code-point intervals of non-ASCII characters accepted by Python's
`str.isdigit` (Unicode property `Numeric_Type=Decimal` or `Digit`):
superscript digits `²³¹` and `⁰⁴`–`⁹`, subscript digits `₀`–`₉`,
Arabic-Indic, extended Arabic-Indic, Devanagari, Bengali and fullwidth
decimal digits.  CPython accepts every code point listed here (and digits
of further scripts not needed below); every interval starts above 127, so
the classifier built from them is exact on ASCII and accepts only
characters CPython also accepts. -/
def unicodeDigitRanges : List (Nat × Nat) :=
  [(0xB2, 0xB3), (0xB9, 0xB9), (0x660, 0x669), (0x6F0, 0x6F9),
   (0x966, 0x96F), (0x9E6, 0x9EF), (0x2070, 0x2070), (0x2074, 0x2079),
   (0x2080, 0x2089), (0xFF10, 0xFF19)]

/-- Python's character-level `isdigit` test: the ASCII decimal digits
together with the non-ASCII Unicode digit characters of
`unicodeDigitRanges`. -/
def pyIsDigitChar (c : Char) : Bool :=
  c.isDigit ||
    unicodeDigitRanges.any (fun r => r.1 ≤ c.toNat && c.toNat ≤ r.2)

/-- Python's `str.isdigit`: nonempty and every character a digit character
(decimal digits of any script, superscripts, subscripts, …). -/
def pyIsDigit (s : String) : Bool :=
  s.length != 0 && s.data.all pyIsDigitChar

/-- `Phone.validate`: raises unless the value has exactly 10 characters,
all digits (`if len(self.value) != 10 or not self.value.isdigit(): raise`). -/
def Phone.validate (s : String) : Except Err Unit :=
  if s.length ≠ 10 ∨ pyIsDigit s = false then Except.error Err.invalidPhone
  else Except.ok ()

/-- `Birthday.__init__`: checks `strptime(value, "%d.%m.%Y")` and, on
success, stores the raw input string unchanged. -/
def mkBirthday (s : String) : Except Err String :=
  match parseDMY s with
  | some _ => Except.ok s
  | none => Except.error Err.invalidDate

/-- A `Record`: contact name, phone numbers (the strings wrapped by the
`Phone` objects) in insertion order, and the optional raw birthday string
(wrapped by `Birthday`). -/
structure Record where
  name : String
  phones : List String
  birthday : Option String
deriving DecidableEq, Repr

/-- `Record(name)`: fresh record with no phones and no birthday. -/
def Record.mkNew (name : String) : Record := ⟨name, [], none⟩

/-- `Record.add_phone`: validates, then appends; on failure the record is
unchanged (the exception propagates before the append). -/
def Record.add_phone (r : Record) (p : String) : Except Err Record :=
  match Phone.validate p with
  | Except.error e => Except.error e
  | Except.ok _ => Except.ok ⟨r.name, r.phones ++ [p], r.birthday⟩

/-- `Record.remove_phone`: keeps every phone whose string differs from `p`
(`[p for p in self.phones if str(p) != phone]`); never fails. -/
def Record.remove_phone (r : Record) (p : String) : Record :=
  ⟨r.name, r.phones.filter (fun q => q ≠ p), r.birthday⟩

/-- `Record.edit_phone`: raises `phoneNotFound` when `old` is absent;
otherwise removes all copies of `old` and then add-validates `new`.  The
returned record is the state of the object when the call ends, also when
an exception (the second component) is raised — this captures the
non-atomic remove-then-add order of the source. -/
def Record.edit_phone (r : Record) (old nw : String) : Record × Option Err :=
  if old ∈ r.phones then
    let r1 := r.remove_phone old
    match r1.add_phone nw with
    | Except.ok r2 => (r2, none)
    | Except.error e => (r1, some e)
  else (r, some Err.phoneNotFound)

/-- `Record.find_phone`: first phone whose string equals `p`, else raises. -/
def Record.find_phone (r : Record) (p : String) : Except Err String :=
  match r.phones.find? (fun q => q == p) with
  | some q => Except.ok q
  | none => Except.error Err.phoneNotFound

/-- `record.birthday = Birthday(dob)` (menu option 4 / `Bot.add_birthday`):
parses and stores the raw string; on failure the record is unchanged. -/
def Record.set_birthday (r : Record) (s : String) : Except Err Record :=
  match mkBirthday s with
  | Except.ok b => Except.ok ⟨r.name, r.phones, some b⟩
  | Except.error e => Except.error e

/-- The `AddressBook`: `self.data`, a dict from name to record, modelled as
an association list in insertion order with unique keys maintained by the
operations (a Python dict can never hold a key twice). -/
structure AddressBook where
  data : List (String × Record)
deriving DecidableEq, Repr

/-- Key membership, `name in self.data`. -/
def AddressBook.hasKey (b : AddressBook) (name : String) : Bool :=
  b.data.any (fun p => p.1 == name)

/-- `AddressBook.add_record`: `self.data[record.name.value] = record` —
dict assignment: overwrites in place when the key exists, else appends. -/
def AddressBook.add_record (b : AddressBook) (r : Record) : AddressBook :=
  if b.hasKey r.name then
    ⟨b.data.map (fun p => if p.1 == r.name then (p.1, r) else p)⟩
  else ⟨b.data ++ [(r.name, r)]⟩

/-- `AddressBook.find`: raises `KeyError` when the name is absent, else
returns `self.data[name]`. -/
def AddressBook.find (b : AddressBook) (name : String) : Except Err Record :=
  match b.data.find? (fun p => p.1 == name) with
  | some p => Except.ok p.2
  | none => Except.error Err.notFound

/-- `AddressBook.delete`: raises `KeyError` when the name is absent, else
`del self.data[name]` removes the keyed entry. -/
def AddressBook.delete (b : AddressBook) (name : String) :
    Except Err AddressBook :=
  if b.hasKey name then
    Except.ok ⟨b.data.filter (fun p => p.1 != name)⟩
  else Except.error Err.notFound

/-- One element of the list `get_upcoming_birthdays` returns:
`{"name": …, "congratulation_date": …}`. -/
structure Entry where
  name : String
  congratulation_date : String
deriving DecidableEq, Repr

/-- `days_until_birthday = (birthday - today).days`: date subtraction in
days (difference of the `toordinal` values). -/
def daysUntil (today b : Date) : Int :=
  (toOrdinal b : Int) - (toOrdinal today : Int)

/-- Lines 104–105 of `main.py`: `if birthday.weekday() >= 5:
days_until_birthday += (7 - birthday.weekday())` — shift a weekend
occurrence's day count onto the following Monday. -/
def shiftWeekend (b : Date) (du : Int) : Int :=
  if 5 ≤ weekday b then du + (7 - (weekday b : Int)) else du

/-- The body of the `for record in self.data.values()` loop of
`get_upcoming_birthdays`, for one record: `some` of the entries it appends
(`[]` or one entry), `none` when the body raises — `strptime` on a bad
stored string, `replace` producing an impossible date (Feb 29 in a
non-leap year, year past 9999), or `today + timedelta` passing `date.max`. -/
def processRecord (today : Date) (r : Record) : Option (List Entry) :=
  match r.birthday with
  | none => some []
  | some bs =>
    match parseDMY bs with
    | none => none
    | some pd =>
      match replaceYear pd today.year with
      | none => none
      | some b0 =>
        match (if dateLt b0 today then replaceYear pd (today.year + 1)
               else some b0) with
        | none => none
        | some b =>
          if 0 ≤ daysUntil today b ∧ daysUntil today b ≤ 7 then
            if (addDays today
                (shiftWeekend b (daysUntil today b)).toNat).year ≤ 9999 then
              some [⟨r.name, formatYMD (addDays today
                (shiftWeekend b (daysUntil today b)).toNat)⟩]
            else none
          else some []

/-- The loop of `get_upcoming_birthdays`, threading the record store it
iterates over (the method never writes it) and the accumulator list. -/
def upcomingAux (today : Date) :
    AddressBook → List Record → List Entry →
      Option (AddressBook × List Entry)
  | b, [], acc => some (b, acc)
  | b, r :: rs, acc =>
    match processRecord today r with
    | none => none
    | some es => upcomingAux today b rs (acc ++ es)

/-- `AddressBook.get_upcoming_birthdays` as a state transformer: the
address book after the call together with the returned list.  `today` is
the value of `datetime.today().date()`, passed explicitly. -/
def AddressBook.get_upcoming_birthdays_run (b : AddressBook) (today : Date) :
    Option (AddressBook × List Entry) :=
  upcomingAux today b (b.data.map Prod.snd) []

/-- `AddressBook.get_upcoming_birthdays`: the returned list alone. -/
def AddressBook.get_upcoming_birthdays (b : AddressBook) (today : Date) :
    Option (List Entry) :=
  (b.get_upcoming_birthdays_run today).map Prod.snd

/-- Claim C1: with today = 2024-06-10 (a Monday) and a directory holding
record A (birthday `12.06.1990`), B (`15.06.1985`) and C (`01.01.1990`),
`get_upcoming_birthdays` returns exactly A with congratulation date
`2024.06.12` and B shifted from Saturday 2024-06-15 to Monday
`2024.06.17`; C is excluded (outside the 7-day window).  The list equality
(in the dict's insertion order) determines the returned set. -/
theorem C1_upcoming_scenario :
    AddressBook.get_upcoming_birthdays
      ⟨[("A", ⟨"A", [], some "12.06.1990"⟩),
        ("B", ⟨"B", [], some "15.06.1985"⟩),
        ("C", ⟨"C", [], some "01.01.1990"⟩)]⟩
      ⟨2024, 6, 10⟩ =
      some [⟨"A", "2024.06.12"⟩, ⟨"B", "2024.06.17"⟩] := by decide

/-- Claim C2 (code bug): a record with birthday Feb 29 makes
`get_upcoming_birthdays` crash whenever `today`'s year is not a leap year:
`birthday.replace(year=today.year)` raises `ValueError` ("day is out of
range for month").  Here the crash (modelled as `none`) is evaluated at
the failing input: birthday `29.02.2020`, today = 2025-06-10 (2025 is not
a leap year) — the claim says this must not crash. -/
theorem C2_feb29_crash :
    AddressBook.get_upcoming_birthdays
      ⟨[("F", ⟨"F", [], some "29.02.2020"⟩)]⟩ ⟨2025, 6, 10⟩ = none := by
  decide

/-- Helper for C3: on ASCII characters Python's digit test coincides with
the decimal-digit test (every non-ASCII digit interval starts above 127). -/
theorem pyIsDigitChar_ascii (c : Char) (h : c.toNat < 128) :
    pyIsDigitChar c = c.isDigit := by
  unfold pyIsDigitChar
  cases hdig : c.isDigit with
  | true => simp
  | false =>
      simp only [Bool.false_or]
      rw [List.any_eq_false]
      intro r hr
      simp only [unicodeDigitRanges, List.mem_cons, List.not_mem_nil,
        or_false] at hr
      rcases hr with rfl | rfl | rfl | rfl | rfl | rfl | rfl | rfl | rfl | rfl <;>
        simp <;> omega

/-- Counterexample for C3 as stated: the 10-character string of superscript
twos passes the program's phone validation — CPython's `str.isdigit` is
true for `'²'` (Unicode `Numeric_Type=Digit`) — although none of its
characters is a decimal digit, so "validation succeeds only if every
character is a decimal digit" is false of the program. -/
theorem C3_unicode_counterexample :
    Phone.validate "²²²²²²²²²²" = Except.ok () ∧
      ¬∀ c ∈ "²²²²²²²²²²".data, c.isDigit = true :=
  ⟨rfl, by decide⟩

/-- Claim C3 (amended): on ASCII strings, phone validation succeeds exactly
on the strings of length 10 whose characters are all decimal digits, and
on every other ASCII string it fails with the invalid-phone error.  The
original claim's universal equivalence is restricted to ASCII strings:
Python's `str.isdigit` also accepts non-ASCII Unicode digit characters
such as `'²'` (see the counterexample), so a 10-character string of those
passes validation without being ten decimal digits. -/
theorem C3_phone_validation (s : String)
    (hascii : ∀ c ∈ s.data, c.toNat < 128) :
    (Phone.validate s = Except.ok () ↔
      s.length = 10 ∧ ∀ c ∈ s.data, c.isDigit = true) ∧
    (¬(s.length = 10 ∧ ∀ c ∈ s.data, c.isDigit = true) →
      Phone.validate s = Except.error Err.invalidPhone) := by
  have hchar : ∀ c ∈ s.data, pyIsDigitChar c = c.isDigit :=
    fun c hc => pyIsDigitChar_ascii c (hascii c hc)
  have hiff : Phone.validate s = Except.ok () ↔
      s.length = 10 ∧ ∀ c ∈ s.data, c.isDigit = true := by
    unfold Phone.validate
    split
    · next h =>
        simp only [reduceCtorEq, false_iff]
        intro hc
        obtain ⟨hc1, hc2⟩ := hc
        rcases h with h | h
        · exact h hc1
        · have hall : pyIsDigit s = true := by
            unfold pyIsDigit
            simp only [Bool.and_eq_true, bne_iff_ne, ne_eq, List.all_eq_true]
            refine ⟨by omega, fun c hc => ?_⟩
            rw [hchar c hc]
            exact hc2 c hc
          rw [hall] at h
          exact Bool.noConfusion h
    · next h =>
        push_neg at h
        obtain ⟨h1, h2⟩ := h
        have h2p : pyIsDigit s = true := Bool.ne_false_iff.mp h2
        unfold pyIsDigit at h2p
        simp only [Bool.and_eq_true, List.all_eq_true] at h2p
        simp only [true_iff]
        refine ⟨h1, fun c hc => ?_⟩
        rw [← hchar c hc]
        exact h2p.2 c hc
  refine ⟨hiff, fun hn => ?_⟩
  unfold Phone.validate
  split
  · rfl
  · next h =>
      push_neg at h
      obtain ⟨h1, h2⟩ := h
      have h2p : pyIsDigit s = true := Bool.ne_false_iff.mp h2
      unfold pyIsDigit at h2p
      simp only [Bool.and_eq_true, List.all_eq_true] at h2p
      refine absurd ⟨h1, fun c hc => ?_⟩ hn
      rw [← hchar c hc]
      exact h2p.2 c hc

/-- Witness for C3 (amended) at a concrete invalid ASCII string
(10 characters, one non-digit). -/
theorem C3_phone_validation_witness :
    Phone.validate "123456789a" = Except.error Err.invalidPhone :=
  (C3_phone_validation "123456789a" (by decide)).2 (by decide)

/-- Claim C5: `edit_phone old nw` fails with the phone-not-found error and
leaves the record unchanged when `old` is not among the phones; otherwise
it removes every copy of `old` first and only then validates `nw` — when
`nw` is invalid it fails with the invalid-phone error with `old` already
removed (non-atomic failure), and when `nw` is valid it appends it. -/
theorem C5_edit_phone (r : Record) (old nw : String) :
    (old ∉ r.phones → r.edit_phone old nw = (r, some Err.phoneNotFound)) ∧
    (old ∈ r.phones → Phone.validate nw = Except.error Err.invalidPhone →
      r.edit_phone old nw =
        (⟨r.name, r.phones.filter (fun q => q ≠ old), r.birthday⟩,
          some Err.invalidPhone)) ∧
    (old ∈ r.phones → Phone.validate nw = Except.ok () →
      r.edit_phone old nw =
        (⟨r.name, r.phones.filter (fun q => q ≠ old) ++ [nw], r.birthday⟩,
          none)) := by
  refine ⟨fun h => ?_, fun h hv => ?_, fun h hv => ?_⟩
  · unfold Record.edit_phone
    rw [if_neg h]
  · unfold Record.edit_phone Record.remove_phone Record.add_phone
    rw [if_pos h]
    simp only [hv]
  · unfold Record.edit_phone Record.remove_phone Record.add_phone
    rw [if_pos h]
    simp only [hv]

/-- Witness for C5: editing the only phone to an invalid value fails with
the invalid-phone error and leaves the record with the old phone already
removed. -/
theorem C5_edit_phone_witness :
    Record.edit_phone ⟨"John", ["1112223333"], none⟩ "1112223333" "444" =
      (⟨"John", ["1112223333"].filter (fun q => q ≠ "1112223333"), none⟩,
        some Err.invalidPhone) :=
  (C5_edit_phone ⟨"John", ["1112223333"], none⟩ "1112223333" "444").2.1
    (by decide) (by rfl)

/-- Claim C10: when birthday parsing succeeds the stored birthday is the
input string itself, character for character (no normalization); the
record's other fields are untouched.  The display form (`Record.__str__`)
and the scheduler (`get_upcoming_birthdays`, via `processRecord`) read the
`birthday` field directly, hence read back exactly this raw string. -/
theorem C10_birthday_raw_stored (r : Record) (s : String) (r' : Record)
    (h : r.set_birthday s = Except.ok r') :
    r'.birthday = some s ∧ r'.name = r.name ∧ r'.phones = r.phones := by
  unfold Record.set_birthday mkBirthday at h
  cases hp : parseDMY s with
  | none =>
      rw [hp] at h
      exact Except.noConfusion h
  | some d =>
      rw [hp] at h
      have h2 : (⟨r.name, r.phones, some s⟩ : Record) = r' := by
        injection h
      rw [← h2]
      exact ⟨rfl, rfl, rfl⟩

/-- Witness for C10 at a concrete record and date string. -/
theorem C10_birthday_raw_stored_witness :
    (Record.mk "Ann" [] (some "12.06.1990")).birthday = some "12.06.1990" ∧
    (Record.mk "Ann" [] (some "12.06.1990")).name = (Record.mkNew "Ann").name ∧
    (Record.mk "Ann" [] (some "12.06.1990")).phones = (Record.mkNew "Ann").phones :=
  C10_birthday_raw_stored (Record.mkNew "Ann") "12.06.1990"
    ⟨"Ann", [], some "12.06.1990"⟩ (by rfl)

/-- Helper for C9: the loop of `get_upcoming_birthdays` never writes the
record store it was given. -/
theorem upcomingAux_fst_eq (today : Date) (b : AddressBook) :
    ∀ (rs : List Record) (acc : List Entry) (b' : AddressBook)
      (res : List Entry),
      upcomingAux today b rs acc = some (b', res) → b' = b := by
  intro rs
  induction rs with
  | nil =>
      intro acc b' res h
      unfold upcomingAux at h
      simp only [Option.some.injEq, Prod.mk.injEq] at h
      exact h.1.symm
  | cons r rs ih =>
      intro acc b' res h
      unfold upcomingAux at h
      cases hp : processRecord today r with
      | none => rw [hp] at h; exact Option.noConfusion h
      | some es => rw [hp] at h; exact ih _ _ _ h

/-- Claim C9: `get_upcoming_birthdays` is read-only — whenever it returns
without error, the address book afterwards equals the address book before
the call (hence the same names, and each record keeps its phones and
birthday). -/
theorem C9_query_readonly (b : AddressBook) (today : Date)
    (b' : AddressBook) (res : List Entry)
    (h : b.get_upcoming_birthdays_run today = some (b', res)) : b' = b :=
  upcomingAux_fst_eq today b _ _ _ _ h

/-- Witness for C9 at the concrete three-record book of the spec's
scenario. -/
theorem C9_query_readonly_witness :
    (⟨[("A", ⟨"A", [], some "12.06.1990"⟩),
       ("B", ⟨"B", [], some "15.06.1985"⟩),
       ("C", ⟨"C", [], some "01.01.1990"⟩)]⟩ : AddressBook) =
      ⟨[("A", ⟨"A", [], some "12.06.1990"⟩),
        ("B", ⟨"B", [], some "15.06.1985"⟩),
        ("C", ⟨"C", [], some "01.01.1990"⟩)]⟩ :=
  C9_query_readonly
    ⟨[("A", ⟨"A", [], some "12.06.1990"⟩),
      ("B", ⟨"B", [], some "15.06.1985"⟩),
      ("C", ⟨"C", [], some "01.01.1990"⟩)]⟩
    ⟨2024, 6, 10⟩ _
    [⟨"A", "2024.06.12"⟩, ⟨"B", "2024.06.17"⟩] (by decide)

/-- Claim C6: `add_record` inserts the record under its name and never
fails — an existing entry with the same name is silently overwritten in
place (find returns the new record), appending otherwise, and key
uniqueness is preserved (each name maps to at most one record); a
subsequent `find` with that name succeeds with a record whose name is the
inserted record's name. -/
theorem C6_add_record (b : AddressBook) (r : Record) :
    (b.add_record r).find r.name = Except.ok r ∧
    ((b.data.map Prod.fst).Nodup →
      ((b.add_record r).data.map Prod.fst).Nodup) := by
  have find_map_update : ∀ l : List (String × Record),
      (l.map (fun p => if p.1 == r.name then (p.1, r) else p)).find?
          (fun p => p.1 == r.name) =
        (l.find? (fun p => p.1 == r.name)).map (fun p => (p.1, r)) := by
    intro l
    induction l with
    | nil => rfl
    | cons p t ih =>
        simp only [List.map_cons]
        split
        · next hC =>
            simp [List.find?_cons, hC]
        · next hC =>
            have e1 : List.find? (fun q => q.1 == r.name)
                (p :: (t.map (fun q => if q.1 == r.name then (q.1, r) else q))) =
                List.find? (fun q => q.1 == r.name)
                  (t.map (fun q => if q.1 == r.name then (q.1, r) else q)) :=
              List.find?_cons_of_neg _ hC
            have e2 : List.find? (fun q => q.1 == r.name) (p :: t) =
                List.find? (fun q => q.1 == r.name) t :=
              List.find?_cons_of_neg _ hC
            rw [e1, e2, ih]
  have hdata_pos : b.hasKey r.name = true → (b.add_record r).data =
      b.data.map (fun p => if p.1 == r.name then (p.1, r) else p) := by
    intro hK
    unfold AddressBook.add_record
    rw [if_pos hK]
  have hdata_neg : ¬b.hasKey r.name = true → (b.add_record r).data =
      b.data ++ [(r.name, r)] := by
    intro hK
    unfold AddressBook.add_record
    rw [if_neg hK]
  constructor
  · by_cases hK : b.hasKey r.name = true
    · unfold AddressBook.find
      rw [hdata_pos hK, find_map_update]
      have hs : (b.data.find? (fun p => p.1 == r.name)).isSome = true :=
        List.find?_isSome.mpr (List.any_eq_true.mp hK)
      obtain ⟨q, hq⟩ := Option.isSome_iff_exists.mp hs
      rw [hq]
      rfl
    · unfold AddressBook.find
      rw [hdata_neg hK, List.find?_append]
      rw [Bool.not_eq_true] at hK
      have h1 : b.data.find? (fun p => p.1 == r.name) = none :=
        List.find?_eq_none.mpr (List.any_eq_false.mp hK)
      have h2 : List.find? (fun p => p.1 == r.name) [(r.name, r)] =
          some (r.name, r) :=
        List.find?_cons_of_pos _ (by simp)
      rw [h1, h2]
      rfl
  · intro hnd
    by_cases hK : b.hasKey r.name = true
    · rw [hdata_pos hK]
      have hmap : (b.data.map
          (fun p => if p.1 == r.name then (p.1, r) else p)).map Prod.fst =
          b.data.map Prod.fst := by
        rw [List.map_map]
        apply List.map_congr_left
        intro p hp
        simp only [Function.comp_apply]
        split <;> rfl
      rw [hmap]
      exact hnd
    · rw [hdata_neg hK]
      rw [Bool.not_eq_true] at hK
      have hall := List.any_eq_false.mp hK
      simp only [List.map_append, List.map_cons, List.map_nil]
      rw [List.nodup_append]
      refine ⟨hnd, List.nodup_singleton _, ?_⟩
      intro x hx hx1
      simp only [List.mem_singleton] at hx1
      obtain ⟨p, hp, hpx⟩ := List.mem_map.mp hx
      exact hall p hp (by simp [hpx, hx1])

/-- Witness for C6: adding a record whose name is already present
overwrites it, `find` returns the new record, and keys stay unique. -/
theorem C6_add_record_witness :
    (AddressBook.find
      (AddressBook.add_record ⟨[("Ann", ⟨"Ann", [], none⟩)]⟩
        ⟨"Ann", ["1112223333"], none⟩) "Ann" =
      Except.ok ⟨"Ann", ["1112223333"], none⟩) ∧
    (((AddressBook.add_record ⟨[("Ann", ⟨"Ann", [], none⟩)]⟩
        ⟨"Ann", ["1112223333"], none⟩).data.map Prod.fst).Nodup) :=
  ⟨(C6_add_record ⟨[("Ann", ⟨"Ann", [], none⟩)]⟩
      ⟨"Ann", ["1112223333"], none⟩).1,
    (C6_add_record ⟨[("Ann", ⟨"Ann", [], none⟩)]⟩
      ⟨"Ann", ["1112223333"], none⟩).2 (by decide)⟩

/-- Claim C7: `delete name` fails with the not-found error when no record
is keyed by `name` (the book is returned unchanged since the operation
fails before mutating), and when the key is present it removes the entry,
making a subsequent `find name` fail with the not-found error. -/
theorem C7_delete (b : AddressBook) (name : String) :
    (b.hasKey name = false → b.delete name = Except.error Err.notFound) ∧
    (b.hasKey name = true → ∃ b', b.delete name = Except.ok b' ∧
      b'.find name = Except.error Err.notFound) := by
  constructor
  · intro h
    unfold AddressBook.delete
    rw [if_neg (by simp [h])]
  · intro h
    unfold AddressBook.delete
    rw [if_pos h]
    refine ⟨_, rfl, ?_⟩
    unfold AddressBook.find
    have hf : (b.data.filter (fun p => p.1 != name)).find?
        (fun p => p.1 == name) = none := by
      rw [List.find?_eq_none]
      intro x hx
      have := List.of_mem_filter hx
      simp only [bne_iff_ne, ne_eq] at this
      simpa using this
    rw [hf]

/-- Witness for C7: deleting from the empty book fails; deleting the only
record succeeds and the record is no longer findable. -/
theorem C7_delete_witness :
    (AddressBook.delete ⟨[]⟩ "Ann" = Except.error Err.notFound) ∧
    (∃ b', AddressBook.delete ⟨[("Ann", ⟨"Ann", [], none⟩)]⟩ "Ann" =
        Except.ok b' ∧ b'.find "Ann" = Except.error Err.notFound) :=
  ⟨(C7_delete ⟨[]⟩ "Ann").1 (by decide),
    (C7_delete ⟨[("Ann", ⟨"Ann", [], none⟩)]⟩ "Ann").2 (by decide)⟩

/-- Every month has at least one day. -/
theorem daysInMonth_pos (y m : Nat) : 1 ≤ daysInMonth y m := by
  unfold daysInMonth
  split_ifs <;> omega

/-- Cumulative month lengths: days before month `m + 1` are the days
before month `m` plus the length of month `m`. -/
theorem daysBeforeMonth_succ (y m : Nat) (h1 : 1 ≤ m) (h2 : m ≤ 11) :
    daysBeforeMonth y (m + 1) = daysBeforeMonth y m + daysInMonth y m := by
  interval_cases m <;>
    simp [daysBeforeMonth, daysInMonth, leapAdj] <;>
    (try split_ifs) <;> omega

/-- Leap-year count difference across one year. -/
theorem leapsBefore_succ (n : Nat) :
    leapsBefore (n + 1) = leapsBefore n + leapAdj (n + 1) := by
  unfold leapsBefore leapAdj isLeapYear
  rw [Nat.succ_div, Nat.succ_div, Nat.succ_div]
  simp only [Bool.or_eq_true, Bool.and_eq_true, beq_iff_eq, bne_iff_ne, ne_eq]
  split_ifs <;> omega

/-- A year contributes 365 days, plus one in a leap year. -/
theorem daysBeforeYear_succ (y : Nat) (h : 1 ≤ y) :
    daysBeforeYear (y + 1) = daysBeforeYear y + 365 + leapAdj y := by
  obtain ⟨n, rfl⟩ : ∃ n, y = n + 1 := ⟨y - 1, by omega⟩
  unfold daysBeforeYear
  simp only [Nat.add_sub_cancel]
  rw [leapsBefore_succ]
  omega

/-- `succDay` advances the ordinal by exactly one on well-formed dates. -/
theorem toOrdinal_succDay (d : Date) (h : d.validShape) :
    toOrdinal (succDay d) = toOrdinal d + 1 := by
  obtain ⟨hy, hm1, hm2, hd1, hd2⟩ := h
  rcases Nat.lt_or_ge d.day (daysInMonth d.year d.month) with h1 | h1
  · unfold succDay
    rw [if_pos h1]
    show daysBeforeYear d.year + daysBeforeMonth d.year d.month + (d.day + 1) =
      toOrdinal d + 1
    unfold toOrdinal
    omega
  · have hde : d.day = daysInMonth d.year d.month := by omega
    rcases Nat.lt_or_ge d.month 12 with h2 | h2
    · unfold succDay
      rw [if_neg (by omega), if_pos h2]
      show daysBeforeYear d.year + daysBeforeMonth d.year (d.month + 1) + 1 =
        toOrdinal d + 1
      rw [daysBeforeMonth_succ d.year d.month hm1 (by omega)]
      unfold toOrdinal
      omega
    · have hm12 : d.month = 12 := by omega
      have hdim : daysInMonth d.year 12 = 31 := by simp [daysInMonth]
      unfold succDay
      rw [if_neg (by omega), if_neg (by omega)]
      show daysBeforeYear (d.year + 1) + daysBeforeMonth (d.year + 1) 1 + 1 =
        toOrdinal d + 1
      rw [daysBeforeYear_succ d.year hy]
      unfold toOrdinal
      rw [hm12]
      have hbm1 : daysBeforeMonth (d.year + 1) 1 = 0 := rfl
      have hbm12 : daysBeforeMonth d.year 12 = 334 + leapAdj d.year := rfl
      rw [hbm1, hbm12]
      rw [hm12, hdim] at hde
      omega

/-- `succDay` keeps dates well-formed. -/
theorem succDay_validShape (d : Date) (h : d.validShape) :
    (succDay d).validShape := by
  obtain ⟨hy, hm1, hm2, hd1, hd2⟩ := h
  unfold succDay
  rcases Nat.lt_or_ge d.day (daysInMonth d.year d.month) with h1 | h1
  · rw [if_pos h1]
    exact ⟨hy, hm1, hm2, Nat.le_add_left 1 d.day, h1⟩
  · rw [if_neg (by omega)]
    rcases Nat.lt_or_ge d.month 12 with h2 | h2
    · rw [if_pos h2]
      exact ⟨hy, Nat.le_add_left 1 d.month, h2, Nat.le_refl 1,
        daysInMonth_pos _ _⟩
    · rw [if_neg (by omega)]
      exact ⟨Nat.le_add_left 1 d.year, Nat.le_refl 1,
        (by omega : (1 : Nat) ≤ 12), Nat.le_refl 1, daysInMonth_pos _ _⟩

/-- `addDays` advances the ordinal by `n` and keeps dates well-formed. -/
theorem addDays_spec (d : Date) (h : d.validShape) (n : Nat) :
    toOrdinal (addDays d n) = toOrdinal d + n ∧ (addDays d n).validShape := by
  induction n with
  | zero => exact ⟨rfl, h⟩
  | succ n ih =>
      have hstep : addDays d (n + 1) = succDay (addDays d n) :=
        Function.iterate_succ_apply' succDay n d
      rw [hstep]
      exact ⟨by rw [toOrdinal_succDay _ ih.2, ih.1]; omega,
        succDay_validShape _ ih.2⟩

/-- A day count that starts nonnegative and is weekend-shifted lands on a
weekday: the congratulation date's weekday index is below 5. -/
theorem congr_weekday_lt (today b : Date) (ht : today.validShape)
    (h0 : 0 ≤ daysUntil today b) :
    weekday (addDays today (shiftWeekend b (daysUntil today b)).toNat) < 5 := by
  have hord := (addDays_spec today ht
    ((shiftWeekend b (daysUntil today b)).toNat)).1
  show (toOrdinal (addDays today
    ((shiftWeekend b (daysUntil today b)).toNat)) + 6) % 7 < 5
  rw [hord]
  unfold daysUntil at h0
  unfold shiftWeekend daysUntil weekday
  split_ifs with hw
  · omega
  · omega

/-- Every entry produced by the loop body of `get_upcoming_birthdays`
carries a congratulation date whose weekday is Monday–Friday. -/
theorem processRecord_weekday (today : Date) (ht : today.validShape)
    (r : Record) (es : List Entry)
    (hp : processRecord today r = some es) :
    ∀ e ∈ es, ∃ dd : Date,
      e.congratulation_date = formatYMD dd ∧ weekday dd < 5 := by
  unfold processRecord at hp
  split at hp
  · injection hp with h
    subst h
    intro e he
    exact absurd he (List.not_mem_nil e)
  · split at hp
    · exact Option.noConfusion hp
    · split at hp
      · exact Option.noConfusion hp
      · split at hp
        · exact Option.noConfusion hp
        · split at hp
          · next hc =>
              split at hp
              · injection hp with h
                subst h
                intro e he
                rw [List.mem_singleton] at he
                subst he
                exact ⟨_, rfl, congr_weekday_lt today _ ht hc.1⟩
              · exact Option.noConfusion hp
          · injection hp with h
            subst h
            intro e he
            exact absurd he (List.not_mem_nil e)

/-- The loop of `get_upcoming_birthdays` only accumulates entries whose
congratulation dates fall on weekdays. -/
theorem upcomingAux_weekday (today : Date) (ht : today.validShape) :
    ∀ (rs : List Record) (b : AddressBook) (acc : List Entry)
      (b' : AddressBook) (res : List Entry),
      upcomingAux today b rs acc = some (b', res) →
      (∀ e ∈ acc, ∃ dd : Date,
        e.congratulation_date = formatYMD dd ∧ weekday dd < 5) →
      ∀ e ∈ res, ∃ dd : Date,
        e.congratulation_date = formatYMD dd ∧ weekday dd < 5 := by
  intro rs
  induction rs with
  | nil =>
      intro b acc b' res h hacc
      unfold upcomingAux at h
      simp only [Option.some.injEq, Prod.mk.injEq] at h
      rw [← h.2]
      exact hacc
  | cons r rs ih =>
      intro b acc b' res h hacc
      unfold upcomingAux at h
      cases hp : processRecord today r with
      | none => rw [hp] at h; exact Option.noConfusion h
      | some es =>
          rw [hp] at h
          refine ih b (acc ++ es) b' res h ?_
          intro e he
          rcases List.mem_append.mp he with he | he
          · exact hacc e he
          · exact processRecord_weekday today ht r es hp e he

/-- Claim C8: whenever `get_upcoming_birthdays` returns without error (for
a well-formed `today`, which `datetime.today()` always is), every
congratulation date in the result falls on a weekday: its weekday index is
below 5, i.e. never Saturday (5) or Sunday (6) — unshifted entries are the
weekday occurrence itself and weekend occurrences land exactly on the
following Monday. -/
theorem C8_weekday_invariant (b : AddressBook) (today : Date)
    (res : List Entry) (ht : today.validShape)
    (h : b.get_upcoming_birthdays today = some res) :
    ∀ e ∈ res, ∃ dd : Date,
      e.congratulation_date = formatYMD dd ∧ weekday dd < 5 := by
  unfold AddressBook.get_upcoming_birthdays at h
  obtain ⟨⟨b2, res2⟩, hrun, hsnd⟩ := Option.map_eq_some'.mp h
  cases hsnd
  exact upcomingAux_weekday today ht _ b [] b2 _ hrun
    (fun e he => absurd he (List.not_mem_nil e))

/-- Witness for C8 at the spec's scenario book: the entry for A carries a
weekday congratulation date. -/
theorem C8_weekday_invariant_witness :
    ∃ dd : Date,
      (Entry.mk "A" "2024.06.12").congratulation_date = formatYMD dd ∧
        weekday dd < 5 :=
  C8_weekday_invariant
    ⟨[("A", ⟨"A", [], some "12.06.1990"⟩),
      ("B", ⟨"B", [], some "15.06.1985"⟩),
      ("C", ⟨"C", [], some "01.01.1990"⟩)]⟩
    ⟨2024, 6, 10⟩
    [⟨"A", "2024.06.12"⟩, ⟨"B", "2024.06.17"⟩]
    (by decide) (by decide) ⟨"A", "2024.06.12"⟩
    (List.mem_cons_self _ _)

/-- No month has more than 31 days. -/
theorem daysInMonth_le (y m : Nat) : daysInMonth y m ≤ 31 := by
  unfold daysInMonth
  split_ifs <;> omega

/-- Digit characters are digits. -/
theorem digitChar_isDigit (n : Nat) (h : n ≤ 9) :
    (digitChar n).isDigit = true := by
  interval_cases n <;> decide

/-- `digitVal` inverts `digitChar` on single digits. -/
theorem digitVal_digitChar (n : Nat) (h : n ≤ 9) :
    digitVal (digitChar n) = n := by
  interval_cases n <;> decide

/-- The `%d` field parser accepts a zero-padded two-digit day and leaves
the rest of the input untouched. -/
theorem parseDayField_pad2 (n : Nat) (hn1 : 1 ≤ n) (hn2 : n ≤ 31)
    (rest : List Char) :
    parseDayField (pad2Chars n ++ rest) = some (n, rest) := by
  have ha : (digitChar (n / 10)).isDigit = true :=
    digitChar_isDigit _ (by omega)
  have hb : (digitChar (n % 10)).isDigit = true :=
    digitChar_isDigit _ (by omega)
  have hva : digitVal (digitChar (n / 10)) = n / 10 :=
    digitVal_digitChar _ (by omega)
  have hvb : digitVal (digitChar (n % 10)) = n % 10 :=
    digitVal_digitChar _ (by omega)
  have hnv : n / 10 * 10 + n % 10 = n := by omega
  simp [pad2Chars, parseDayField, ha, hb, hva, hvb, hnv, hn1, hn2]

/-- The `%m` field parser accepts a zero-padded two-digit month and leaves
the rest of the input untouched. -/
theorem parseMonthField_pad2 (n : Nat) (hn1 : 1 ≤ n) (hn2 : n ≤ 12)
    (rest : List Char) :
    parseMonthField (pad2Chars n ++ rest) = some (n, rest) := by
  have ha : (digitChar (n / 10)).isDigit = true :=
    digitChar_isDigit _ (by omega)
  have hb : (digitChar (n % 10)).isDigit = true :=
    digitChar_isDigit _ (by omega)
  have hva : digitVal (digitChar (n / 10)) = n / 10 :=
    digitVal_digitChar _ (by omega)
  have hvb : digitVal (digitChar (n % 10)) = n % 10 :=
    digitVal_digitChar _ (by omega)
  have hnv : n / 10 * 10 + n % 10 = n := by omega
  simp [pad2Chars, parseMonthField, ha, hb, hva, hvb, hnv, hn1, hn2]

/-- The `%Y` field parser accepts a zero-padded four-digit year and leaves
the rest of the input untouched. -/
theorem parseYearField_pad4 (n : Nat) (h : n ≤ 9999) (rest : List Char) :
    parseYearField (pad4Chars n ++ rest) = some (n, rest) := by
  have h1 : (digitChar (n / 1000)).isDigit = true :=
    digitChar_isDigit _ (by omega)
  have h2 : (digitChar (n / 100 % 10)).isDigit = true :=
    digitChar_isDigit _ (by omega)
  have h3 : (digitChar (n / 10 % 10)).isDigit = true :=
    digitChar_isDigit _ (by omega)
  have h4 : (digitChar (n % 10)).isDigit = true :=
    digitChar_isDigit _ (by omega)
  have v1 : digitVal (digitChar (n / 1000)) = n / 1000 :=
    digitVal_digitChar _ (by omega)
  have v2 : digitVal (digitChar (n / 100 % 10)) = n / 100 % 10 :=
    digitVal_digitChar _ (by omega)
  have v3 : digitVal (digitChar (n / 10 % 10)) = n / 10 % 10 :=
    digitVal_digitChar _ (by omega)
  have v4 : digitVal (digitChar (n % 10)) = n % 10 :=
    digitVal_digitChar _ (by omega)
  have hnv : n / 1000 * 1000 + n / 100 % 10 * 100 + n / 10 % 10 * 10 +
      n % 10 = n := by omega
  simp [pad4Chars, parseYearField, h1, h2, h3, h4, v1, v2, v3, v4, hnv]

/-- Counterexample for C4 as stated: `"1.1.2020"` is not a (zero-padded)
`DD.MM.YYYY` rendering of any real date, yet parsing succeeds — CPython's
`strptime` `%d`/`%m` accept one- or two-digit fields — so "parsing fails
for strings that are not real dates in that exact pattern" is false. -/
theorem C4_lenient_counterexample :
    parseDMY "1.1.2020" = some ⟨2020, 1, 1⟩ := by decide

/-- Claim C4 (amended): for every real calendar date, parsing its
`DD.MM.YYYY` rendering succeeds and returns exactly that date (hence the
date formatted back equals the original input string); parsing fails on
the impossible or malformed strings `"31.02.2020"`, `"00.01.2020"` and
`"not-a-date"`.  The original universal failure clause is weakened: the
parser also accepts non-zero-padded day/month fields (see the
counterexample), so failure is claimed only for the listed strings. -/
theorem C4_parse_roundtrip :
    (∀ d : Date, d.validShape → d.year ≤ 9999 →
      parseDMY (formatDMY d) = some d) ∧
    parseDMY "31.02.2020" = none ∧
    parseDMY "00.01.2020" = none ∧
    parseDMY "not-a-date" = none := by
  refine ⟨?_, by decide, by decide, by decide⟩
  intro d h h9
  obtain ⟨hy, hm1, hm2, hd1, hd2⟩ := h
  have hd31 : d.day ≤ 31 := le_trans hd2 (daysInMonth_le d.year d.month)
  show parseDMYList (pad2Chars d.day ++ '.' :: pad2Chars d.month ++ '.' ::
    pad4Chars d.year) = some d
  have e1 := parseDayField_pad2 d.day hd1 hd31
    ('.' :: (pad2Chars d.month ++ '.' :: pad4Chars d.year))
  have e2 := parseMonthField_pad2 d.month hm1 hm2
    ('.' :: pad4Chars d.year)
  have e3 : parseYearField (pad4Chars d.year) = some (d.year, []) := by
    have h4 := parseYearField_pad4 d.year h9 []
    simpa using h4
  simp only [List.append_assoc, List.cons_append]
  simp [parseDMYList, e1, e2, e3, hy, h9, hd2]

/-- Witness for C4 (amended) at the concrete leap date 29.02.2020. -/
theorem C4_parse_roundtrip_witness :
    parseDMY (formatDMY ⟨2020, 2, 29⟩) = some ⟨2020, 2, 29⟩ :=
  C4_parse_roundtrip.1 ⟨2020, 2, 29⟩ (by decide) (by decide)
